import Mathlib

/-!
Shallow embedding of the bcron lifecycle coordinator
(src/better_cron/cron.go) and proofs of the spec claims.

Time is modelled as natural numbers (nanoseconds); `time.Time` zero
values ("unset") are modelled as `Option Nat = none`.  Each triggered
execution of the `wrapJob` closure, interleaved with the work goroutine
it spawns, is modelled as the sequence of observable states of the
shared `JobMetadata` record (its trace): the interleaving is fixed by
the WaitGroup synchronisation in the source, with the only
nondeterminism being whether the job context's Done channel fires
before the work's completion channel in the select.
-/

namespace BCron

/-- JobStatus from cron.go: Idle, Running, Completed, Failed, Cancelled. -/
inductive JobStatus where
  | idle
  | running
  | completed
  | failed
  | cancelled
deriving DecidableEq, Repr

/-- The Go error values that appear in the coordinator:
`fmt.Errorf("job panic: %v", r)`, `context.DeadlineExceeded`,
`context.Canceled`, and the shutdown timeout error. -/
inductive GoError where
  | jobPanic (msg : String)
  | deadlineExceeded
  | contextCanceled
  | shutdownTimeout (t : Nat)
deriving DecidableEq, Repr

/-- JobMetadata from cron.go.  `wrapJob` never assigns the ID field, so
it stays at its zero value.  `endTime = none` models the zero
`time.Time` (unset); `error = none` models a nil error. -/
structure JobMetadata where
  id : Nat := 0
  name : String
  startTime : Nat
  endTime : Option Nat
  status : JobStatus
  error : Option GoError
deriving DecidableEq, Repr

/-- One observable state of a tracked execution: the metadata record,
whether the record is currently registered in `activeJobs`
(`inStore`), and whether `job.Run()` has been invoked yet
(`workStarted`). -/
structure RecordState where
  md : JobMetadata
  inStore : Bool
  workStarted : Bool
deriving DecidableEq, Repr

/-- EnhancedCron configuration state: the single `timeout` field (used
both for each job context and for the shutdown ceiling) and the
optional logger. -/
structure EnhancedCron where
  timeout : Nat
  hasLogger : Bool
deriving DecidableEq, Repr

/-- time.Second in nanoseconds. -/
def second : Nat := 1000000000

/-- NewEnhancedCron: the default timeout is 30 seconds; the options are
then applied in order (functional options pattern). -/
def NewEnhancedCron (opts : List (EnhancedCron → EnhancedCron)) : EnhancedCron :=
  opts.foldl (fun ec opt => opt ec) { timeout := 30 * second, hasLogger := false }

/-- WithTimeout sets the one timeout field. -/
def WithTimeout (t : Nat) : EnhancedCron → EnhancedCron :=
  fun ec => { ec with timeout := t }

/-- WithLogger sets the logger and touches nothing else. -/
def WithLogger : EnhancedCron → EnhancedCron :=
  fun ec => { ec with hasLogger := true }

/-- Parameters of one triggered execution: the job name, the absolute
start wall-clock time, the time (relative to start) at which the work
goroutine fires the WaitGroup (after `job.Run()` returns or the panic
is recovered), whether the work panics and with what value, and the
time (relative to start, if ever) at which the parent shutdown context
is cancelled. -/
structure WrapParams where
  name : String
  startAt : Nat
  workDuration : Nat
  panics : Bool
  panicVal : String
  parentCancelAt : Option Nat
deriving Repr

/-- The instant (relative to job start) at which the job context
`context.WithTimeout(ec.shutdownCtx, ec.timeout)` is done: its own
deadline, or the parent cancellation if that comes first. -/
def effectiveDeadline (parentCancelAt : Option Nat) (timeout : Nat) : Nat :=
  match parentCancelAt with
  | none => timeout
  | some c => min c timeout

set_option linter.unusedVariables false in
/-- waitWithTimeout from cron.go: despite its name and second argument,
the returned channel closes exactly when the WaitGroup fires — the
timeout parameter is ignored by the implementation. -/
def waitWithTimeout (wgFiresAt : Nat) (timeout : Nat) : Nat :=
  wgFiresAt

/-- Whether the select in `wrapJob` takes the `jobCtx.Done()` branch:
the context fires strictly before the completion channel from
`waitWithTimeout`. -/
def timesOut (ec : EnhancedCron) (p : WrapParams) : Bool :=
  effectiveDeadline p.parentCancelAt ec.timeout < waitWithTimeout p.workDuration ec.timeout

/-- jobCtx.Err() once the context is done: DeadlineExceeded when the
derived deadline fired no later than the parent cancellation, Canceled
when the parent was cancelled first. -/
def jobCtxErr (ec : EnhancedCron) (p : WrapParams) : GoError :=
  match p.parentCancelAt with
  | none => GoError.deadlineExceeded
  | some c => if ec.timeout ≤ c then GoError.deadlineExceeded else GoError.contextCanceled

/-- The terminal status the work goroutine writes: Failed on a
recovered panic, Completed on normal return. -/
def workTermStatus (panics : Bool) : JobStatus :=
  if panics then JobStatus.failed else JobStatus.completed

/-- The error the work goroutine records: the descriptive
`fmt.Errorf("job panic: %v", r)` on a recovered panic, nil otherwise. -/
def workError (p : WrapParams) : Option GoError :=
  if p.panics then some (GoError.jobPanic ("job panic: " ++ p.panicVal)) else none

/-- The trace of observable record states of one `wrapJob` execution.

Order of events, fixed by the source and the WaitGroup happens-before
edges:
1. the metadata record is created with status Running, startTime now,
   zero endTime (cron.go lines 97-101);
2. the jobInfo struct is stored in `activeJobs` (line 113);
3. the goroutine is launched and invokes `job.Run()` (line 127);
4. the goroutine writes the terminal status — Completed on return,
   Failed plus a non-nil error on a recovered panic — and only then
   fires the WaitGroup (lines 118-128);
5. if the job context fired first, the wrapper blocks in `wg.Wait()`
   until the goroutine is done, then overwrites status with Cancelled
   and error with `jobCtx.Err()` (lines 133-137);
6. the wrapper sets endTime to the moment it observed completion
   (line 142) and the deferred `activeJobs.Delete` runs (line 114). -/
def wrapJobTrace (ec : EnhancedCron) (p : WrapParams) : List RecordState :=
  let md0 : JobMetadata :=
    { name := p.name, startTime := p.startAt, endTime := none,
      status := JobStatus.running, error := none }
  let s0 : RecordState := { md := md0, inStore := false, workStarted := false }
  let s1 : RecordState := { s0 with inStore := true }
  let s2 : RecordState := { s1 with workStarted := true }
  let s3 : RecordState :=
    { s2 with md := { md0 with status := workTermStatus p.panics, error := workError p } }
  if timesOut ec p then
    let md4 : JobMetadata :=
      { s3.md with status := JobStatus.cancelled, error := some (jobCtxErr ec p) }
    let s4 : RecordState := { s3 with md := md4 }
    let s5 : RecordState :=
      { s4 with md := { s4.md with endTime := some (p.startAt + p.workDuration) } }
    let s6 : RecordState := { s5 with inStore := false }
    [s0, s1, s2, s3, s4, s5, s6]
  else
    let s4 : RecordState :=
      { s3 with md := { s3.md with endTime := some (p.startAt + p.workDuration) } }
    let s5 : RecordState := { s4 with inStore := false }
    [s0, s1, s2, s3, s4, s5]

/-- The status values along a trace, in order. -/
def statuses (ec : EnhancedCron) (p : WrapParams) : List JobStatus :=
  (wrapJobTrace ec p).map (fun s => s.md.status)

/-- Terminal statuses per the spec state machine. -/
def isTerminal (s : JobStatus) : Bool :=
  match s with
  | JobStatus.completed => true
  | JobStatus.failed => true
  | JobStatus.cancelled => true
  | _ => false

/-- The dynamic type of an `interface\x7b\x7d` value held in the
`activeJobs` sync.Map.  `wrapJob` stores the anonymous
`struct\x7bmetadata *JobMetadata; wg *sync.WaitGroup\x7d` value
(`jobInfoVal`); a bare `*JobMetadata` (`metaPtr`) is what the read
accessors assert the value to be. -/
inductive StoredValue where
  | metaPtr (md : JobMetadata)
  | jobInfoVal (md : JobMetadata)
deriving DecidableEq, Repr

/-- The `activeJobs` map, as an association list keyed by job name. -/
abbrev Store := List (String × StoredValue)

/-- Runtime faults: a failed single-value type assertion
(`interface conversion` panic in Go). -/
inductive GoPanic where
  | typeAssertion
deriving DecidableEq, Repr

/-- sync.Map.Load. -/
def loadValue (st : Store) (name : String) : Option StoredValue :=
  (st.find? (fun kv => kv.1 == name)).map (fun kv => kv.2)

/-- GetJobStatus from cron.go: Load, then the single-value assertion
`value.(*JobMetadata)` — which panics when the dynamic type is the
jobInfo struct — then return (metadata, true); (nil, false) when the
name is absent. -/
def GetJobStatus (st : Store) (name : String) :
    Except GoPanic (Option JobMetadata × Bool) :=
  match loadValue st name with
  | some (StoredValue.metaPtr md) => Except.ok (some md, true)
  | some (StoredValue.jobInfoVal _) => Except.error GoPanic.typeAssertion
  | none => Except.ok (none, false)

/-- The Range loop of GetActiveJobs: each visited value goes through
the single-value assertion `value.(*JobMetadata)`, which panics when
the dynamic type is the jobInfo struct. -/
def rangeAssertMeta (st : Store) : Except GoPanic (List JobMetadata) :=
  match st with
  | [] => Except.ok []
  | kv :: rest =>
    match kv.2 with
    | StoredValue.metaPtr md =>
      match rangeAssertMeta rest with
      | Except.ok mds => Except.ok (md :: mds)
      | Except.error e => Except.error e
    | StoredValue.jobInfoVal _ => Except.error GoPanic.typeAssertion

/-- GetActiveJobs from cron.go: Range over the map, assert each value
with `value.(*JobMetadata)` (panicking on a jobInfo struct), and keep
the records whose status is Running. -/
def GetActiveJobs (st : Store) : Except GoPanic (List JobMetadata) :=
  match rangeAssertMeta st with
  | Except.ok mds => Except.ok (mds.filter (fun md => md.status == JobStatus.running))
  | Except.error e => Except.error e

/-- The `activeJobs` content contributed by one execution in a given
trace state: while registered, the map holds the jobInfo struct (not a
`*JobMetadata`) under the job's name. -/
def snapshotStore (p : WrapParams) (s : RecordState) : Store :=
  if s.inStore then [(p.name, StoredValue.jobInfoVal s.md)] else []

/-- Largest element of a list of instants (0 when empty). -/
def listMax (ts : List Nat) : Nat :=
  ts.foldr max 0

/-- The Range loop of Shutdown: each active job's stored value is
asserted to the jobInfo struct type — the type `wrapJob` actually
stores, so this assertion succeeds on every wrapJob-written entry —
and a waiter on that job's WaitGroup is spawned.  Returns the instants
at which the WaitGroups fire. -/
def collectWaitTimes (st : Store) (wgAt : String → Nat) : Except GoPanic (List Nat) :=
  match st with
  | [] => Except.ok []
  | kv :: rest =>
    match kv.2 with
    | StoredValue.jobInfoVal _ =>
      match collectWaitTimes rest wgAt with
      | Except.ok ts => Except.ok (wgAt kv.1 :: ts)
      | Except.error e => Except.error e
    | StoredValue.metaPtr _ => Except.error GoPanic.typeAssertion

/-- Shutdown from cron.go, run against a snapshot of `activeJobs`:
cancels the shared token, stops the cron, spawns a waiter per active
job (asserting each stored value to the jobInfo struct type, which is
the type `wrapJob` stored), and selects between the drain — all job
WaitGroups fired and the cron stop context done — and its own
`ec.timeout` deadline.  Returns the instant at which the call returns
together with nil on a full drain or the timeout error otherwise.
`wgAt name` is the instant the named job's WaitGroup fires; `stopAt`
is the instant the cron stop context is done. -/
def ShutdownRun (st : Store) (wgAt : String → Nat) (stopAt timeout : Nat) :
    Except GoPanic (Nat × Option GoError) :=
  match collectWaitTimes st wgAt with
  | Except.error e => Except.error e
  | Except.ok times =>
    let drain := max (listMax times) stopAt
    if drain < timeout then Except.ok (drain, none)
    else Except.ok (timeout, some (GoError.shutdownTimeout timeout))

/-- Shutdown reads its wait ceiling from the cron's one timeout field;
it takes no timeout argument of its own. -/
def Shutdown (ec : EnhancedCron) (st : Store) (wgAt : String → Nat) (stopAt : Nat) :
    Except GoPanic (Nat × Option GoError) :=
  ShutdownRun st wgAt stopAt ec.timeout

set_option linter.unusedVariables false in
/-- The shared shutdown token: `ec.cancelShutdown()` moves it to (or
leaves it at) the cancelled state; a `context.CancelFunc` is a no-op
after the first call. -/
def cancelShutdownTok (cancelled : Bool) : Bool :=
  true

/-- Whether a stored value has the jobInfo struct dynamic type. -/
def isJobInfo (v : StoredValue) : Bool :=
  match v with
  | StoredValue.jobInfoVal _ => true
  | StoredValue.metaPtr _ => false

/-- A store in which every value was written by `wrapJob`
(cron.go line 113): all values are jobInfo structs. -/
def WFStore (st : Store) : Prop :=
  ∀ kv ∈ st, isJobInfo kv.2 = true

instance (st : Store) : Decidable (WFStore st) :=
  List.decidableBAll _ st

/-- A configuration with a 3-unit timeout, used for concrete runs. -/
def exEC : EnhancedCron := { timeout := 3, hasLogger := false }

/-- The job of main.go ("my-job") whose work outlives the deadline. -/
def exSlow : WrapParams :=
  { name := "my-job", startAt := 0, workDuration := 5, panics := false,
    panicVal := "", parentCancelAt := none }

/-- The same job with work finishing before the deadline. -/
def exQuick : WrapParams := { exSlow with workDuration := 2 }

/-- A job whose work panics, finishing before the deadline. -/
def exPanic : WrapParams := { exQuick with panics := true, panicVal := "boom" }

/-- A store with one record, registered the way `wrapJob` registers. -/
def exStore : Store :=
  [("my-job", StoredValue.jobInfoVal
    { name := "my-job", startTime := 0, endTime := none,
      status := JobStatus.running, error := none })]

/-- A WaitGroup schedule: every job's completion signal fires at 1. -/
def exWg : String → Nat := fun _ => 1

/-- The statuses along a trace, fully evaluated: three Running states,
then the work goroutine's terminal write, then — exactly when the job
context fired first — the wrapper's Cancelled overwrite. -/
theorem statuses_eq (ec : EnhancedCron) (p : WrapParams) :
    statuses ec p =
      if timesOut ec p then
        [JobStatus.running, JobStatus.running, JobStatus.running, workTermStatus p.panics,
         JobStatus.cancelled, JobStatus.cancelled, JobStatus.cancelled]
      else
        [JobStatus.running, JobStatus.running, JobStatus.running, workTermStatus p.panics,
         workTermStatus p.panics, workTermStatus p.panics] := by
  by_cases h : timesOut ec p <;> simp [statuses, wrapJobTrace, h]

/-- C1, counterexample: with a 3-unit timeout and work that fires its
completion signal at 5, the work task records Completed (trace index 3)
and the wrapper afterwards overwrites the status with Cancelled (trace
index 4): a terminal status is changed by a later write, refuting the
claimed monotonicity. -/
theorem C1_counterexample :
    ∃ i j : Nat, i < j ∧
      (statuses exEC exSlow).get? i = some JobStatus.completed ∧
      (statuses exEC exSlow).get? j = some JobStatus.cancelled :=
  ⟨3, 4, by decide, by decide, by decide⟩

/-- C1, amended: the successive distinct status values of a tracked
execution are exactly Running, then the work task's single terminal
write (Failed on a recovered panic, Completed otherwise), and — exactly
when the deadline-bound scope fires before the completion signal — one
further overwrite to Cancelled by the wrapper.  So the status never
returns to Running and, in the no-timeout path, the terminal status is
written once and never changed; but in the timeout path the record
marked Completed or Failed by the work task IS subsequently overwritten
with Cancelled. -/
theorem C1_status_evolution (ec : EnhancedCron) (p : WrapParams) :
    (statuses ec p).destutter Ne =
      if timesOut ec p then
        [JobStatus.running, workTermStatus p.panics, JobStatus.cancelled]
      else
        [JobStatus.running, workTermStatus p.panics] := by
  rw [statuses_eq]
  by_cases h : timesOut ec p <;>
    by_cases hp : p.panics <;>
      simp [h, hp, workTermStatus, List.destutter, List.destutter']

/-- C4, counterexample: in a normally completing run, the state at
trace index 3 — after the work task's Completed write, before the
wrapper's endTime write — is registered in the store, has the terminal
status Completed, and still has an unset endTime, refuting the claim
that no observable state combines a terminal status with an unset
endTime. -/
theorem C4_counterexample :
    ((wrapJobTrace exEC exQuick).get? 3).map
        (fun s => (s.md.status, s.md.endTime, s.inStore)) =
      some (JobStatus.completed, (none : Option Nat), true) := by
  decide

/-- C4, amended: endTime is unset in every state whose status is
Running, endTime is only ever set on a record whose status is terminal,
and the final state of the wrapper has endTime set (to the instant the
wrapper observed completion); but the converse direction of the claim
fails — the status leaves Running strictly before endTime is written,
so intermediate registered states with a terminal status and an unset
endTime are reachable. -/
theorem C4_endTime_discipline (ec : EnhancedCron) (p : WrapParams) :
    (∀ s ∈ wrapJobTrace ec p, s.md.status = JobStatus.running → s.md.endTime = none)
  ∧ (∀ s ∈ wrapJobTrace ec p, s.md.endTime ≠ none → isTerminal s.md.status = true)
  ∧ ((wrapJobTrace ec p).getLast?).map (fun s => s.md.endTime) =
      some (some (p.startAt + p.workDuration)) := by
  by_cases h : timesOut ec p <;>
    by_cases hp : p.panics <;>
      simp [wrapJobTrace, h, hp, workTermStatus, workError, isTerminal]

/-- C5: when the deadline-bound scope fires before the work's
completion signal, every Cancelled status in the trace is preceded by
the work task's own terminal write — the wrapper blocked in `wg.Wait()`
until the work finished before marking the record Cancelled — and
every Cancelled state carries the scope's expiry reason
(`jobCtx.Err()`) as the captured error. -/
theorem C5_cancelled_only_after_completion (ec : EnhancedCron) (p : WrapParams)
    (h : timesOut ec p = true) :
    (∀ j, (statuses ec p).get? j = some JobStatus.cancelled →
        ∃ i, i < j ∧ (statuses ec p).get? i = some (workTermStatus p.panics))
  ∧ (∀ s ∈ wrapJobTrace ec p, s.md.status = JobStatus.cancelled →
        s.md.error = some (jobCtxErr ec p)) := by
  constructor
  · intro j hj
    rw [statuses_eq] at hj
    simp only [h, if_true] at hj
    refine ⟨3, ?_, ?_⟩
    · rcases j with _ | _ | _ | _ | j
      · simp at hj
      · simp at hj
      · simp at hj
      · by_cases hp : p.panics <;> simp [workTermStatus, hp] at hj
      · omega
    · rw [statuses_eq]
      simp [h]
  · intro s hs hc
    by_cases hp : p.panics <;>
      simp [wrapJobTrace, h, hp, workTermStatus, workError] at hs <;>
      rcases hs with rfl | rfl | rfl | rfl | rfl | rfl | rfl <;>
      simp_all

/-- C5, witness: the run with a 3-unit timeout and a 5-unit work
duration satisfies the hypothesis and the conclusion. -/
theorem C5_witness :
    timesOut exEC exSlow = true ∧
    ((∀ j, (statuses exEC exSlow).get? j = some JobStatus.cancelled →
        ∃ i, i < j ∧ (statuses exEC exSlow).get? i = some (workTermStatus exSlow.panics))
     ∧ (∀ s ∈ wrapJobTrace exEC exSlow, s.md.status = JobStatus.cancelled →
        s.md.error = some (jobCtxErr exEC exSlow))) :=
  ⟨by decide, C5_cancelled_only_after_completion exEC exSlow (by decide)⟩

/-- C7: a panicking unit of work is recovered inside the spawned task:
the trace contains a state whose status is Failed with the non-nil
descriptive error `fmt.Errorf("job panic: %v", r)`; the wrapper still
runs to completion (the final state has endTime set and the record
deleted from the map, so the panic never escapes the goroutine); the
final status is Failed whenever the deadline did not fire first; and
the execution only ever writes the record registered under its own
name, leaving other jobs' records untouched. -/
theorem C7_panic_recovered (ec : EnhancedCron) (p : WrapParams) (hp : p.panics = true) :
    (∃ s ∈ wrapJobTrace ec p, s.md.status = JobStatus.failed ∧
        s.md.error = some (GoError.jobPanic ("job panic: " ++ p.panicVal)))
  ∧ ((wrapJobTrace ec p).getLast?).map (fun s => (s.md.endTime, s.inStore)) =
      some (some (p.startAt + p.workDuration), false)
  ∧ (statuses ec p).getLast? =
      some (if timesOut ec p then JobStatus.cancelled else JobStatus.failed)
  ∧ (∀ s ∈ wrapJobTrace ec p, s.md.name = p.name) := by
  by_cases h : timesOut ec p <;>
    simp [wrapJobTrace, statuses, h, hp, workTermStatus, workError]

/-- C7, witness: a 2-unit panicking job under a 3-unit timeout. -/
theorem C7_witness :
    exPanic.panics = true ∧
    ((∃ s ∈ wrapJobTrace exEC exPanic, s.md.status = JobStatus.failed ∧
        s.md.error = some (GoError.jobPanic ("job panic: " ++ exPanic.panicVal)))
     ∧ ((wrapJobTrace exEC exPanic).getLast?).map (fun s => (s.md.endTime, s.inStore)) =
        some (some (exPanic.startAt + exPanic.workDuration), false)
     ∧ (statuses exEC exPanic).getLast? =
        some (if timesOut exEC exPanic then JobStatus.cancelled else JobStatus.failed)
     ∧ (∀ s ∈ wrapJobTrace exEC exPanic, s.md.name = exPanic.name)) :=
  ⟨rfl, C7_panic_recovered exEC exPanic rfl⟩

/-- C9: the record is registered in `activeJobs` before the work is
invoked: trace index 1 is the state right after the store write — the
record is visible while the work has not yet started — and every state
in which the work has started lies strictly after it. -/
theorem C9_registered_before_work (ec : EnhancedCron) (p : WrapParams) :
    ((wrapJobTrace ec p).get? 1).map (fun s => (s.inStore, s.workStarted)) =
      some (true, false)
  ∧ (∀ i s, (wrapJobTrace ec p).get? i = some s → s.workStarted = true → 1 < i) := by
  constructor
  · by_cases h : timesOut ec p <;> simp [wrapJobTrace, h]
  · intro i s hi hw
    rcases i with _ | _ | i
    · by_cases h : timesOut ec p <;>
        simp [wrapJobTrace, h] at hi <;> simp [← hi] at hw
    · by_cases h : timesOut ec p <;>
        simp [wrapJobTrace, h] at hi <;> simp [← hi] at hw
    · omega

/-- C2: code bug.  `wrapJob` stores the jobInfo struct (cron.go line
113) but `GetJobStatus` asserts the loaded value to `*JobMetadata`
(line 211), so on every registered record — every in-store state of
every execution trace — the call panics with a failed type assertion
instead of returning the record with found = true.  Registered records
do exist in every trace, and only the absent-name path (found = false)
behaves as claimed. -/
theorem C2_getJobStatus_panics (ec : EnhancedCron) (p : WrapParams) :
    (∀ s ∈ wrapJobTrace ec p, s.inStore = true →
        GetJobStatus (snapshotStore p s) p.name = Except.error GoPanic.typeAssertion)
  ∧ GetJobStatus [] p.name = Except.ok (none, false)
  ∧ (∃ s ∈ wrapJobTrace ec p, s.inStore = true) := by
  refine ⟨?_, rfl, ?_⟩
  · intro s hs hin
    simp [GetJobStatus, snapshotStore, hin, loadValue]
  · by_cases h : timesOut ec p <;> simp [wrapJobTrace, h]

/-- C3: code bug.  `GetActiveJobs` asserts each ranged value to
`*JobMetadata` (cron.go line 220) while the map holds jobInfo structs,
so whenever any record is registered — in particular while a record is
Running, exactly when the claim requires it to be listed — the call
panics with a failed type assertion; only the empty map returns the
(empty) Running list as claimed. -/
theorem C3_getActiveJobs_panics (ec : EnhancedCron) (p : WrapParams) :
    (∀ s ∈ wrapJobTrace ec p, s.inStore = true →
        GetActiveJobs (snapshotStore p s) = Except.error GoPanic.typeAssertion)
  ∧ GetActiveJobs [] = Except.ok []
  ∧ (∃ s ∈ wrapJobTrace ec p, s.inStore = true ∧ s.md.status = JobStatus.running) := by
  refine ⟨?_, rfl, ?_⟩
  · intro s hs hin
    simp [GetActiveJobs, snapshotStore, hin, rangeAssertMeta]
  · by_cases h : timesOut ec p <;> simp [wrapJobTrace, h]

/-- Under a store whose values were all written by `wrapJob`, the
Range loop of Shutdown asserts every value successfully and collects
one WaitGroup instant per registered job. -/
theorem collectWaitTimes_wf (st : Store) (wgAt : String → Nat) (hwf : WFStore st) :
    collectWaitTimes st wgAt = Except.ok (st.map (fun kv => wgAt kv.1)) := by
  induction st with
  | nil => rfl
  | cons kv rest ih =>
    have hkv : isJobInfo kv.2 = true := hwf kv (List.mem_cons_self kv rest)
    have hrest : WFStore rest := fun x hx => hwf x (List.mem_cons_of_mem kv hx)
    cases hv : kv.2 with
    | metaPtr md => rw [hv] at hkv; simp [isJobInfo] at hkv
    | jobInfoVal md => simp [collectWaitTimes, hv, ih hrest]

/-- The maximum of a list of instants is below the deadline exactly
when the deadline is positive and every instant is below it. -/
theorem listMax_lt_iff (ts : List Nat) (t : Nat) :
    listMax ts < t ↔ (0 < t ∧ ∀ x ∈ ts, x < t) := by
  induction ts with
  | nil => simp [listMax]
  | cons a rest ih =>
    simp only [listMax, List.foldr_cons] at ih ⊢
    rw [Nat.max_lt, ih]
    constructor
    · rintro ⟨ha, h0, hall⟩
      exact ⟨h0, by simpa [ha] using hall⟩
    · rintro ⟨h0, hall⟩
      exact ⟨hall a (List.mem_cons_self a rest), h0,
        fun x hx => hall x (List.mem_cons_of_mem a hx)⟩

/-- The drain instant of Shutdown is below the ceiling exactly when
every registered job's WaitGroup and the cron stop signal fire below
it. -/
theorem drain_lt_iff (st : Store) (wgAt : String → Nat) (stopAt t : Nat) :
    max (listMax (st.map (fun kv => wgAt kv.1))) stopAt < t ↔
      ((∀ kv ∈ st, wgAt kv.1 < t) ∧ stopAt < t) := by
  rw [Nat.max_lt, listMax_lt_iff]
  constructor
  · rintro ⟨⟨h0, hall⟩, hstop⟩
    exact ⟨fun kv hkv => hall _ (List.mem_map_of_mem _ hkv), hstop⟩
  · rintro ⟨hall, hstop⟩
    refine ⟨⟨by omega, ?_⟩, hstop⟩
    intro x hx
    obtain ⟨kv, hkv, rfl⟩ := List.mem_map.mp hx
    exact hall kv hkv

/-- C6: on a store whose records were registered by `wrapJob`,
Shutdown returns nil exactly when every outstanding execution's
WaitGroup and the cron stop context fire strictly before the timeout
elapses, and returns the timeout error exactly otherwise. -/
theorem C6_shutdown_outcome (ec : EnhancedCron) (st : Store) (wgAt : String → Nat)
    (stopAt : Nat) (hwf : WFStore st) :
    ((Shutdown ec st wgAt stopAt).map (fun r => r.2) = Except.ok none ↔
        ((∀ kv ∈ st, wgAt kv.1 < ec.timeout) ∧ stopAt < ec.timeout))
  ∧ ((Shutdown ec st wgAt stopAt).map (fun r => r.2) =
        Except.ok (some (GoError.shutdownTimeout ec.timeout)) ↔
        ¬ ((∀ kv ∈ st, wgAt kv.1 < ec.timeout) ∧ stopAt < ec.timeout)) := by
  unfold Shutdown ShutdownRun
  rw [collectWaitTimes_wf st wgAt hwf]
  rw [← drain_lt_iff st wgAt stopAt ec.timeout]
  by_cases hdr : max (listMax (st.map (fun kv => wgAt kv.1))) stopAt < ec.timeout <;>
    simp [hdr, Except.map]

/-- C6, witness: one registered job firing at 1, stop signal at 1,
timeout 3. -/
theorem C6_witness :
    WFStore exStore ∧
    (((Shutdown exEC exStore exWg 1).map (fun r => r.2) = Except.ok none ↔
        ((∀ kv ∈ exStore, exWg kv.1 < exEC.timeout) ∧ 1 < exEC.timeout))
     ∧ ((Shutdown exEC exStore exWg 1).map (fun r => r.2) =
          Except.ok (some (GoError.shutdownTimeout exEC.timeout)) ↔
        ¬ ((∀ kv ∈ exStore, exWg kv.1 < exEC.timeout) ∧ 1 < exEC.timeout))) :=
  ⟨by decide, C6_shutdown_outcome exEC exStore exWg 1 (by decide)⟩

/-- C8: a (second) Shutdown call on a wrapJob-written store never
faults and never blocks past its own deadline: it returns a result at
an instant bounded by the configured timeout, and cancelling the
already-cancelled shared token changes nothing. -/
theorem C8_second_shutdown_safe (ec : EnhancedCron) (st : Store) (wgAt : String → Nat)
    (stopAt : Nat) (hwf : WFStore st) :
    (∃ t r, Shutdown ec st wgAt stopAt = Except.ok (t, r) ∧ t ≤ ec.timeout)
  ∧ (∀ b : Bool, cancelShutdownTok (cancelShutdownTok b) = cancelShutdownTok b) := by
  constructor
  · unfold Shutdown ShutdownRun
    rw [collectWaitTimes_wf st wgAt hwf]
    by_cases hdr : max (listMax (st.map (fun kv => wgAt kv.1))) stopAt < ec.timeout
    · exact ⟨_, none, by simp [hdr], Nat.le_of_lt hdr⟩
    · exact ⟨ec.timeout, some (GoError.shutdownTimeout ec.timeout), by simp [hdr],
        Nat.le_refl _⟩
  · intro b
    rfl

/-- C8, witness: the same concrete store as C6. -/
theorem C8_witness :
    WFStore exStore ∧
    ((∃ t r, Shutdown exEC exStore exWg 1 = Except.ok (t, r) ∧ t ≤ exEC.timeout)
     ∧ (∀ b : Bool, cancelShutdownTok (cancelShutdownTok b) = cancelShutdownTok b)) :=
  ⟨by decide, C8_second_shutdown_safe exEC exStore exWg 1 (by decide)⟩

/-- Options that only set the logger never touch the timeout field. -/
theorem foldl_logger_only (opts : List (EnhancedCron → EnhancedCron))
    (h : ∀ o ∈ opts, o = WithLogger) (ec : EnhancedCron) :
    (opts.foldl (fun ec opt => opt ec) ec).timeout = ec.timeout := by
  induction opts generalizing ec with
  | nil => rfl
  | cons o rest ih =>
    have ho : o = WithLogger := h o (List.mem_cons_self o rest)
    have hrest : ∀ x ∈ rest, x = WithLogger := fun x hx => h x (List.mem_cons_of_mem o hx)
    simp only [List.foldl_cons, ih hrest, ho]
    rfl

/-- C10: there is one configured duration.  The constructor defaults
the timeout field to 30 seconds; any run of logger-only options leaves
that default in place; `WithTimeout` is the one option that sets the
field; the wrapper's per-execution deadline-bound scope is derived
from exactly that field; and Shutdown takes no timeout argument of its
own — its wait ceiling is read from the same field. -/
theorem C10_single_timeout_field :
    (NewEnhancedCron []).timeout = 30 * second
  ∧ (∀ opts, (∀ o ∈ opts, o = WithLogger) →
      (NewEnhancedCron opts).timeout = 30 * second)
  ∧ (∀ t opts, (NewEnhancedCron (opts ++ [WithTimeout t])).timeout = t)
  ∧ (∀ ec p, timesOut ec p =
      decide (effectiveDeadline p.parentCancelAt ec.timeout <
        waitWithTimeout p.workDuration ec.timeout))
  ∧ (∀ ec st wgAt stopAt, Shutdown ec st wgAt stopAt =
      ShutdownRun st wgAt stopAt ec.timeout) := by
  refine ⟨rfl, ?_, ?_, fun ec p => rfl, fun ec st wgAt stopAt => rfl⟩
  · intro opts h
    exact foldl_logger_only opts h _
  · intro t opts
    simp [NewEnhancedCron, List.foldl_append, WithTimeout]

end BCron
